import Mathlib

/-!
# Verification of the aidoku-js WASM runtime core

A shallow embedding, in Lean 4, of the parts of the runtime that the
specification's claims are about:

* the resource table (`src/runtime/src/global-store.ts`: `GlobalStore`,
  `DescriptorScope`, `performCleanup`),
* the postcard varint encoders (`src/runtime/src/postcard.ts`),
* the result-pointer readers and ABI detection (`readResultPayload`,
  `detectRuntimeMode`, `readResult`),
* the `std.buffer_len` and `net.send` / `net.data_len` /
  `net.get_status_code` imports,
* the cookie jar, and
* the partial home-layout accumulator of `getHomeImpl`.

JavaScript `Map` objects are modelled as insertion-ordered association
lists (`Map.set` updates an existing key in place, otherwise appends;
iteration is in insertion order).  JavaScript numbers holding rids,
reference counts and timestamps are modelled as `Int`; byte buffers
(`Uint8Array`) as `List Nat` with entries below 256.  Debug-only
statistics counters (`GlobalStore.stats`), which no behaviour reads, are
omitted from the state.
-/

namespace AidokuJs

/-! ## Association-list model of JavaScript `Map` -/

/-- `Map.get`: first entry with the given key. -/
def alookup {α β : Type} [DecidableEq α] (m : List (α × β)) (k : α) : Option β :=
  match m with
  | [] => none
  | (k1, v1) :: rest => if k1 = k then some v1 else alookup rest k

/-- `Map.set`: update the first entry with the key in place, else append. -/
def aset {α β : Type} [DecidableEq α] (m : List (α × β)) (k : α) (v : β) :
    List (α × β) :=
  match m with
  | [] => [(k, v)]
  | (k1, v1) :: rest => if k1 = k then (k, v) :: rest else (k1, v1) :: aset rest k v

/-- `Map.delete`: remove the first entry with the key. -/
def aerase {α β : Type} [DecidableEq α] (m : List (α × β)) (k : α) :
    List (α × β) :=
  match m with
  | [] => []
  | (k1, v1) :: rest => if k1 = k then rest else (k1, v1) :: aerase rest k

/-! ## Postcard varint encoders (`src/runtime/src/postcard.ts`)

`encodeVarint` is the unsigned LEB128 loop (`val & 0x7f | 0x80`,
`val >>>= 7`); `encodeI32` applies the 32-bit zigzag transform
`(val << 1) ^ (val >> 31)` and feeds the `>>> 0` (unsigned) result to
`encodeVarint`.  JavaScript 32-bit operator semantics are made explicit
through `toUint32` / `toInt32`. -/

/-- JavaScript `>>> 0`: value of an integer as an unsigned 32-bit number. -/
def toUint32 (n : Int) : Nat := (n % (4294967296 : Int)).toNat

/-- JavaScript `| 0`: value of an integer as a signed 32-bit number. -/
def toInt32 (n : Int) : Int :=
  let u := toUint32 n
  if u < 2147483648 then (u : Int) else (u : Int) - 4294967296

/-- Bitwise xor of two JavaScript numbers in 32-bit space (result signed). -/
def xor32 (a b : Int) : Int := toInt32 (Nat.xor (toUint32 a) (toUint32 b))

/-- `encodeVarint` from `postcard.ts` (unsigned LEB128). -/
def encodeVarint (val : Nat) : List Nat :=
  if h : 128 ≤ val then
    (val % 128 + 128) :: encodeVarint (val / 128)
  else
    [val]
  decreasing_by exact Nat.div_lt_self (Nat.lt_of_lt_of_le (by norm_num) h) (by norm_num)

/-- `encodeI32` from `postcard.ts`: zigzag then varint.
`val << 1` is `toInt32 (val * 2)`; `val >> 31` is the arithmetic shift,
which on an int32 is `-1` for negatives and `0` otherwise. -/
def encodeI32 (val : Int) : List Nat :=
  let v := toInt32 val
  let zigzag := xor32 (toInt32 (v * 2)) (if v < 0 then -1 else 0)
  encodeVarint (toUint32 zigzag)

/-- UTF-8 encoding of one Unicode scalar value (model of `TextEncoder`).
Lean `Char` is a Unicode scalar value, so the four standard ranges cover
every case. -/
def utf8EncodeChar (c : Char) : List Nat :=
  let n := c.toNat
  if n < 128 then [n]
  else if n < 2048 then [192 + n / 64, 128 + n % 64]
  else if n < 65536 then [224 + n / 4096, 128 + n / 64 % 64, 128 + n % 64]
  else [240 + n / 262144, 128 + n / 4096 % 64, 128 + n / 64 % 64, 128 + n % 64]

/-- Model of `new TextEncoder().encode(s)`: the UTF-8 bytes of a string. -/
def utf8Encode (s : String) : List Nat := s.toList.flatMap utf8EncodeChar

/-- `encodeString` from `postcard.ts` (via the external
`serde-postcard-ts` library's `tryEncodeString`): varint byte length
followed by the UTF-8 bytes. -/
def encodeString (s : String) : List Nat :=
  encodeVarint (utf8Encode s).length ++ utf8Encode s

/-- `encodeVecString` from `postcard.ts`: varint element count followed by
the postcard encoding of each string. -/
def encodeVecString (arr : List String) : List Nat :=
  encodeVarint arr.length ++ arr.flatMap encodeString

/-! ## Result-pointer readers and ABI detection (`src/unnamed/part_009`,
`src/unnamed/part_004`)

Plugin linear memory is a byte list; `DataView.getInt32(ptr, true)` is a
little-endian signed 32-bit read that throws (caught, yielding `null`)
when fewer than 4 bytes remain; `new Uint8Array(buffer, off, len)` throws
(caught as well) when `off + len` exceeds the buffer. -/

/-- Little-endian signed 32-bit read at `p` (requires `p + 4 ≤ mem.length`). -/
def getInt32LE (mem : List Nat) (p : Nat) : Int :=
  let u := mem.getD p 0 % 256 + 256 * (mem.getD (p+1) 0 % 256) +
    65536 * (mem.getD (p+2) 0 % 256) + 16777216 * (mem.getD (p+3) 0 % 256)
  if u < 2147483648 then (u : Int) else (u : Int) - 4294967296

/-- `readResultPayload` from the result-decoder module: `null` for
non-positive pointers, out-of-bounds reads and header length ≤ 8;
otherwise the `len − 8` bytes following the 8-byte header. -/
def readResultPayload (mem : List Nat) (ptr : Int) : Option (List Nat) :=
  if ptr ≤ 0 then none
  else
    let p := ptr.toNat
    if mem.length < p + 4 then none
    else
      let len := getInt32LE mem p
      if len ≤ 8 then none
      else
        let payloadLen := (len - 8).toNat
        if mem.length < p + 8 + payloadLen then none
        else some ((mem.drop (p + 8)).take payloadLen)

/-- `readResult` from the dispatcher (`src/unnamed/part_004`); its body is
the same pointer/length logic as `readResultPayload`. -/
def readResult (mem : List Nat) (ptr : Int) : Option (List Nat) :=
  if ptr ≤ 0 then none
  else
    let p := ptr.toNat
    if mem.length < p + 4 then none
    else
      let len := getInt32LE mem p
      if len ≤ 8 then none
      else
        if mem.length < p + 8 + (len - 8).toNat then none
        else some ((mem.drop (p + 8)).take (len - 8).toNat)

/-- The two ABI runtime modes. -/
inductive RuntimeMode where
  | legacy
  | aidokuRs
  deriving DecidableEq, Repr

/-- `detectRuntimeMode` from the result-decoder module, over the set of
exported symbol names. -/
def detectRuntimeMode (exports : List String) : RuntimeMode :=
  let hasNewAbiExports :=
    exports.contains "get_search_manga_list" || exports.contains "get_manga_update"
  let hasLegacyExports :=
    exports.contains "get_manga_details" || exports.contains "get_chapter_list"
  if hasNewAbiExports then RuntimeMode.aidokuRs
  else if hasLegacyExports then RuntimeMode.legacy
  else RuntimeMode.aidokuRs

/-! ## JavaScript string primitives

Models of the JavaScript string methods the runtime uses
(`split`, `trim`, `toLowerCase`, `endsWith`, `indexOf`, `join`),
written over `List Char` so that they evaluate inside the kernel. -/

/-- `String.prototype.split` with a one-character separator. -/
def splitChar (cs : List Char) (sep : Char) : List (List Char) :=
  match cs with
  | [] => [[]]
  | c :: rest =>
    let parts := splitChar rest sep
    if c = sep then [] :: parts
    else
      match parts with
      | [] => [[c]]
      | p :: ps => (c :: p) :: ps

/-- `String.prototype.split(sep)` on strings. -/
def jsSplit (s : String) (sep : Char) : List String :=
  (splitChar s.toList sep).map String.mk

/-- `String.prototype.trim`. -/
def jsTrim (s : String) : String :=
  String.mk (((s.toList.dropWhile Char.isWhitespace).reverse.dropWhile
    Char.isWhitespace).reverse)

/-- `String.prototype.toLowerCase` (ASCII is all the runtime relies on). -/
def jsToLower (s : String) : String := String.mk (s.toList.map Char.toLower)

/-- `String.prototype.endsWith`. -/
def jsEndsWith (s suffix : String) : Bool :=
  s.toList.reverse.take suffix.toList.length = suffix.toList.reverse

/-- `String.prototype.indexOf` for a one-character needle
(`-1` becomes `none`). -/
def jsIndexOfChar (s : String) (c : Char) : Option Nat :=
  s.toList.findIdx? (fun ch => ch = c)

/-- `Array.prototype.join(sep)`. -/
def jsJoin (sep : String) (parts : List String) : String :=
  match parts with
  | [] => ""
  | p :: ps => ps.foldl (fun acc q => acc ++ sep ++ q) p

/-! ## The resource table (`src/runtime/src/global-store.ts`)

`GlobalStore` state: the monotone rid counter, the descriptor map, the
request map, the unified kind (`resources`) map and the cookie jar.
Every operation that calls `Date.now()` in the source takes the current
time `now : Int` explicitly.  The debug `stats` counters, the
`chapterCounter` / `currentManga` scalars and the partial-home fields are
omitted: no modelled behaviour reads them. -/

/-- Logical payloads stored as descriptor values.  The source stores
arbitrary JavaScript values; the categories `buffer_len` / `read_buffer`
distinguish are `Uint8Array`, `string`, arrays and everything else, so
this sum covers the behaviour of the modelled imports. -/
inductive StdValue where
  | null
  | bool (b : Bool)
  | int (n : Int)
  | str (s : String)
  | bytes (bs : List Nat)
  | arr (vs : List StdValue)
  | obj (fields : List (String × StdValue))

/-- `DescriptorEntry`. -/
structure DescriptorEntry where
  value : StdValue
  refCount : Int
  createdAt : Int

/-- `ResourceType`. -/
inductive ResourceType where
  | stdValue
  | request
  | jsContext
  | canvas
  | image
  | font
  deriving DecidableEq, Repr

/-- `WasmResponse`. -/
structure WasmResponse where
  data : Option (List Nat)
  statusCode : Option Int
  headers : List (String × String)
  bytesRead : Int
  deriving DecidableEq, Repr

/-- `WasmRequest`. -/
structure WasmRequest where
  id : Int
  url : Option String
  method : Option String
  headers : List (String × String)
  body : Option (List Nat)
  response : Option WasmResponse
  createdAt : Int
  deriving DecidableEq, Repr

/-- The mutable state of a `GlobalStore`. -/
structure Store where
  ridCounter : Int
  descriptors : List (Int × DescriptorEntry)
  requests : List (Int × WasmRequest)
  resources : List (Int × ResourceType)
  cookies : List (String × String)

/-- A freshly constructed store. -/
def Store.init : Store := ⟨0, [], [], [], []⟩

/-- `storeStdValue`: allocate a fresh rid, insert with refcount 1. -/
def storeStdValue (now : Int) (v : StdValue) (s : Store) : Int × Store :=
  let rid := s.ridCounter + 1
  (rid,
    { s with
      ridCounter := rid
      descriptors := aset s.descriptors rid ⟨v, 1, now⟩
      resources := aset s.resources rid ResourceType.stdValue })

/-- `readStdValue`. -/
def readStdValue (s : Store) (descriptor : Int) : Option StdValue :=
  (alookup s.descriptors descriptor).map (fun e => e.value)

/-- `updateStdValue`: replace the payload in place, if present. -/
def updateStdValue (s : Store) (descriptor : Int) (v : StdValue) : Store :=
  match alookup s.descriptors descriptor with
  | none => s
  | some e =>
    { s with descriptors := aset s.descriptors descriptor { e with value := v } }

/-- `retainStdValue`: increment the reference count, if present. -/
def retainStdValue (s : Store) (descriptor : Int) : Store :=
  match alookup s.descriptors descriptor with
  | none => s
  | some e =>
    { s with
      descriptors := aset s.descriptors descriptor
        { e with refCount := e.refCount + 1 } }

/-- `removeStdValue`: decrement the count; delete from both maps when the
count reaches zero or below. -/
def removeStdValue (s : Store) (descriptor : Int) : Store :=
  match alookup s.descriptors descriptor with
  | none => s
  | some e =>
    if e.refCount - 1 ≤ 0 then
      { s with
        descriptors := aerase s.descriptors descriptor
        resources := aerase s.resources descriptor }
    else
      { s with
        descriptors := aset s.descriptors descriptor
          { e with refCount := e.refCount - 1 } }

/-- `forceRemoveStdValue`: unconditional removal; the kind-map entry is
deleted only when the descriptor-map delete succeeded. -/
def forceRemoveStdValue (s : Store) (descriptor : Int) : Store :=
  if (alookup s.descriptors descriptor).isSome then
    { s with
      descriptors := aerase s.descriptors descriptor
      resources := aerase s.resources descriptor }
  else s

/-- `destroyResource` (the `std.destroy` entry point).  The source's
`default` arm is unreachable here because `ResourceType` is exhaustive. -/
def destroyResource (s : Store) (rid : Int) : Bool × Store :=
  match alookup s.resources rid with
  | none => (false, s)
  | some ResourceType.request =>
    (true,
      { s with
        requests := aerase s.requests rid
        resources := aerase s.resources rid })
  | some _ => (true, forceRemoveStdValue s rid)

/-- The fixed `HttpMethod` table of `createRequest`. -/
def methodTable : List String :=
  ["GET", "POST", "PUT", "HEAD", "DELETE", "PATCH", "OPTIONS", "CONNECT", "TRACE"]

/-- `createRequest`: allocate a fresh rid and a request with the mapped
method string (any out-of-range index falls back to `"GET"`). -/
def createRequest (now : Int) (method : Int) (s : Store) : Int × Store :=
  let rid := s.ridCounter + 1
  let methodStr :=
    if 0 ≤ method then methodTable.getD method.toNat "GET" else "GET"
  (rid,
    { s with
      ridCounter := rid
      requests := aset s.requests rid
        ⟨rid, none, some methodStr, [], none, none, now⟩
      resources := aset s.resources rid ResourceType.request })

/-! ### The periodic sweeper (`performCleanup`) -/

/-- Sweeper thresholds from `MEMORY_CONFIG` (milliseconds / counts). -/
def MAX_DESCRIPTOR_AGE_MS : Int := 300000
def MAX_REQUEST_AGE_MS : Int := 600000
def MAX_DESCRIPTORS : Nat := 10000
def MAX_REQUESTS : Nat := 1000

/-- Stable insertion of an element into a list sorted by an `Int` key
(insertion after all existing elements with a key ≤ the new one). -/
def insertByKey {α : Type} (key : α → Int) (x : α) : List α → List α
  | [] => [x]
  | h :: t => if key x < key h then x :: h :: t else h :: insertByKey key x t

/-- Model of the stable `Array.prototype.sort((a, b) => key a - key b)`. -/
def sortByKey {α : Type} (key : α → Int) (l : List α) : List α :=
  l.foldl (fun acc x => insertByKey key x acc) []

/-- `performCleanup`: drop zero-refcount descriptors older than the
descriptor age limit and requests older than the request age limit, then
enforce the population caps by deleting the oldest zero-refcount
descriptors / oldest requests.  Only the `descriptors` and `requests`
maps are touched. -/
def performCleanup (now : Int) (s : Store) : Store :=
  let descriptors1 := s.descriptors.filter fun kv =>
    !(decide (kv.2.refCount ≤ 0) && decide (MAX_DESCRIPTOR_AGE_MS < now - kv.2.createdAt))
  let requests1 := s.requests.filter fun kv =>
    !(decide (MAX_REQUEST_AGE_MS < now - kv.2.createdAt))
  let descriptors2 :=
    if MAX_DESCRIPTORS < descriptors1.length then
      let toRemove := descriptors1.length - MAX_DESCRIPTORS + 100
      let victims :=
        (sortByKey (fun kv => kv.2.createdAt)
          (descriptors1.filter fun kv => decide (kv.2.refCount ≤ 0))).take toRemove
      victims.foldl (fun m kv => aerase m kv.1) descriptors1
    else descriptors1
  let requests2 :=
    if MAX_REQUESTS < requests1.length then
      let toRemove := requests1.length - MAX_REQUESTS + 50
      let victims :=
        (sortByKey (fun kv => kv.2.createdAt) requests1).take toRemove
      victims.foldl (fun m kv => aerase m kv.1) requests1
    else requests1
  { s with descriptors := descriptors2, requests := requests2 }

/-! ### `DescriptorScope` -/

/-- A scoped descriptor tracker. -/
structure DescriptorScope where
  tracked : List Int
  disposed : Bool
  deriving DecidableEq, Repr

/-- `createScope`. -/
def createScope : DescriptorScope := ⟨[], false⟩

/-- `DescriptorScope.track`: throws on a disposed scope; positive
descriptors are recorded; the descriptor is returned for chaining. -/
def DescriptorScope.track (sc : DescriptorScope) (descriptor : Int) :
    Except String (DescriptorScope × Int) :=
  if sc.disposed then Except.error "Cannot track descriptor on disposed scope"
  else
    Except.ok
      ({ sc with
          tracked := if 0 < descriptor then sc.tracked ++ [descriptor] else sc.tracked },
        descriptor)

/-- `DescriptorScope.cleanup`: once only; force-removes every tracked
descriptor. -/
def DescriptorScope.cleanup (s : Store) (sc : DescriptorScope) :
    Store × DescriptorScope :=
  if sc.disposed then (s, sc)
  else (sc.tracked.foldl forceRemoveStdValue s, ⟨[], true⟩)

/-! ## Import `std.buffer_len` (`src/runtime/src/imports/std.ts`) -/

/-- `value.every(v => typeof v === "string")`, returning the strings. -/
def asStrings : List StdValue → Option (List String)
  | [] => some []
  | StdValue.str s :: rest => (asStrings rest).map (fun t => s :: t)
  | _ => none

/-- `std.buffer_len`: byte length of the payload; a `string` payload is
cached in place as its raw UTF-8 bytes, an all-strings array as its
postcard vec-of-strings encoding; anything else is `InvalidDescriptor`
(−1). -/
def buffer_len (s : Store) (descriptor : Int) : Int × Store :=
  if descriptor < 0 then (-1, s)
  else
    match readStdValue s descriptor with
    | none => (-1, s)
    | some v =>
      match v with
      | StdValue.bytes bs => ((bs.length : Int), s)
      | StdValue.str t =>
        let encoded := utf8Encode t
        ((encoded.length : Int), updateStdValue s descriptor (StdValue.bytes encoded))
      | StdValue.arr vs =>
        match asStrings vs with
        | some ss =>
          let encoded := encodeVecString ss
          ((encoded.length : Int), updateStdValue s descriptor (StdValue.bytes encoded))
        | none => (-1, s)
      | _ => (-1, s)

/-! ## The cookie jar (`global-store.ts`) and import `net`
(`src/unnamed/part_002`-style `createNetImports`)

`new URL(url)` is a platform builtin; it is modelled by an explicit
parameter `hostnameOf : String → Option String` returning the hostname
of a parseable URL and `none` where the constructor would throw. -/

/-- `storeCookiesFromHeader`: keep the first `name=value` token of the
header (name must be non-empty) under the key `domain:name`. -/
def storeCookiesFromHeader (s : Store) (domain header : String) : Store :=
  let nameValue := jsTrim ((jsSplit header ';').headD "")
  match jsIndexOfChar nameValue '=' with
  | none => s
  | some eqIdx =>
    if 0 < eqIdx then
      let name := String.mk (nameValue.toList.take eqIdx)
      let value := String.mk (nameValue.toList.drop (eqIdx + 1))
      { s with cookies := aset s.cookies (domain ++ ":" ++ name) value }
    else s

/-- `storeCookiesFromResponse`: store every `set-cookie` header value
(case-insensitive key comparison) for the url's hostname. -/
def storeCookiesFromResponse (hostnameOf : String → Option String) (s : Store)
    (url : String) (headers : List (String × String)) : Store :=
  match hostnameOf url with
  | none => s
  | some domain =>
    headers.foldl
      (fun st kv =>
        if jsToLower kv.1 = "set-cookie" then storeCookiesFromHeader st domain kv.2
        else st)
      s

/-- `key.split(":", 2)`: the first two segments (a missing second segment
is JavaScript `undefined`, which the template string renders as the text
`undefined`). -/
def cookieKeySegments (key : String) : String × String :=
  match jsSplit key ':' with
  | [] => ("", "undefined")
  | [d] => (d, "undefined")
  | d :: n :: _ => (d, n)

/-- `getCookiesForUrl`: join every stored cookie whose domain segment is
the url's hostname or a parent domain of it. -/
def getCookiesForUrl (hostnameOf : String → Option String) (s : Store)
    (url : String) : Option String :=
  match hostnameOf url with
  | none => none
  | some domain =>
    let matching := s.cookies.filterMap fun kv =>
      let seg := cookieKeySegments kv.1
      if domain = seg.1 || jsEndsWith domain ("." ++ seg.1) then
        some (seg.2 ++ "=" ++ kv.2)
      else none
    if 0 < matching.length then some (jsJoin "; " matching) else none

/-- The argument object handed to the injected HTTP bridge. -/
structure BridgeRequest where
  url : String
  method : String
  headers : List (String × String)
  body : Option (List Nat)

/-- The response object the bridge returns.  `body` carries the text
form, `bytes` the optional raw form (the source prefers `bytes` and
UTF-8-encodes `body` otherwise).  The request body handed to the bridge
is kept in raw-byte form here; the source's `TextDecoder` conversion of
it is not observable by any modelled behaviour. -/
structure BridgeResponse where
  status : Int
  headers : List (String × String)
  body : String
  bytes : Option (List Nat)

/-- Response header normalisation of `net.send`: lowercase keys,
same-key values joined with `", "`. -/
def normalizeHeaders (hs : List (String × String)) : List (String × String) :=
  hs.foldl
    (fun acc kv =>
      let headerKey := jsToLower kv.1
      match alookup acc headerKey with
      | some existing => aset acc headerKey (existing ++ ", " ++ kv.2)
      | none => aset acc headerKey kv.2)
    []

/-- `net.init`: create a request and install the default User-Agent. -/
def DEFAULT_USER_AGENT : String :=
  "Mozilla/5.0 (iPhone; CPU iPhone OS 17_0 like Mac OS X) AppleWebKit/605.1.15 (KHTML, like Gecko) Version/17.0 Mobile/15E148 Safari/604.1"

def net_init (now : Int) (method : Int) (s : Store) : Int × Store :=
  let r := createRequest now method s
  match alookup r.2.requests r.1 with
  | none => r
  | some req =>
    (r.1,
      { r.2 with
        requests := aset r.2.requests r.1
          { req with headers := aset req.headers "User-Agent" DEFAULT_USER_AGENT } })

/-- `net.set_url`: validates the string and the URL (the length check and
`readString` act on the already-read string here; `new URL` throwing is
`hostnameOf url = none`). -/
def set_url (hostnameOf : String → Option String) (s : Store)
    (descriptor : Int) (url : String) : Int × Store :=
  if descriptor < 0 then (-1, s)
  else
    match alookup s.requests descriptor with
    | none => (-1, s)
    | some req =>
      if url.toList.length = 0 then (-2, s)
      else if (hostnameOf url).isNone then (-4, s)
      else (0, { s with requests := aset s.requests descriptor { req with url := some url } })

/-- `net.set_header` (on the already-read key/value strings). -/
def set_header (s : Store) (descriptor : Int) (key value : String) : Int × Store :=
  if descriptor < 0 then (-1, s)
  else
    match alookup s.requests descriptor with
    | none => (-1, s)
    | some req =>
      if key.toList.length = 0 then (-2, s)
      else
        (0,
          { s with
            requests := aset s.requests descriptor
              { req with headers := aset req.headers key value } })

/-- `net.send`.  Control flow of the source:
1. invalid / unknown descriptor → −1; unset (or empty) url → −9 with no
   state change;
2. stored cookies for the url are merged into the `Cookie` header
   (stored cookies first, then the request's existing ones);
3. the bridge is invoked; on success the response headers are
   normalised, `set-cookie` values stored in the jar, and the body (raw
   bytes preferred, else UTF-8 of the text) recorded with
   `bytesRead = 0`;
4. if the bridge throws, an empty response (`data = []`, status 0, no
   headers) is installed and −10 returned. -/
def send (hostnameOf : String → Option String)
    (bridge : BridgeRequest → Except String BridgeResponse)
    (s : Store) (descriptor : Int) : Int × Store :=
  if descriptor < 0 then (-1, s)
  else
    match alookup s.requests descriptor with
    | none => (-1, s)
    | some req =>
      match req.url with
      | none => (-9, s)
      | some url =>
        if url = "" then (-9, s)
        else
          let req1 :=
            match getCookiesForUrl hostnameOf s url with
            | none => req
            | some storedCookies =>
              let newCookie :=
                match alookup req.headers "Cookie" with
                | some existing =>
                  if existing = "" then storedCookies
                  else storedCookies ++ "; " ++ existing
                | none => storedCookies
              { req with headers := aset req.headers "Cookie" newCookie }
          let s1 := { s with requests := aset s.requests descriptor req1 }
          let bridgeReq : BridgeRequest :=
            { url := url
              method :=
                match req1.method with
                | none => "GET"
                | some m => if m = "" then "GET" else m
              headers := req1.headers
              body := req1.body }
          match bridge bridgeReq with
          | Except.error _ =>
            let req2 := { req1 with response := some ⟨some [], some 0, [], 0⟩ }
            (-10, { s1 with requests := aset s1.requests descriptor req2 })
          | Except.ok response =>
            let responseHeaders := normalizeHeaders response.headers
            let s2 := storeCookiesFromResponse hostnameOf s1 url responseHeaders
            let data :=
              match response.bytes with
              | some bs => bs
              | none => utf8Encode response.body
            let req2 :=
              { req1 with
                response := some ⟨some data, some response.status, responseHeaders, 0⟩ }
            (0, { s2 with requests := aset s2.requests descriptor req2 })

/-- `net.data_len`: length of the response data (0 for an empty body). -/
def data_len (s : Store) (descriptor : Int) : Int :=
  if descriptor < 0 then -1
  else
    match alookup s.requests descriptor with
    | none => -1
    | some req =>
      match req.response with
      | none => -8
      | some resp =>
        match resp.data with
        | none => -7
        | some d => (d.length : Int)

/-- `net.get_status_code`: the recorded status, defaulting to 0. -/
def get_status_code (s : Store) (descriptor : Int) : Int :=
  if descriptor < 0 then -1
  else
    match alookup s.requests descriptor with
    | none => -1
    | some req =>
      match req.response with
      | none => -8
      | some resp => resp.statusCode.getD 0

/-! ## The partial home-layout accumulator (`getHomeImpl`,
`src/unnamed/part_004`)

The accumulator is a JavaScript `Map` keyed by component title (or a
synthetic `_idx_<size>` key when the title is absent); `Map.set` keeps
insertion order, so a re-emitted title replaces the stored component in
place.  Decoded component payloads are opaque to the accumulator, so the
payload is an abstract token here. -/

/-- A decoded `HomeComponent`: the accumulator reads only `title`; the
`value` field stands for the decoded component payload. -/
structure HomeComponent where
  title : Option String
  subtitle : Option String
  value : Nat
  deriving DecidableEq, Repr

/-- One `send_partial_result` emission after decoding: variant 0 is a
whole layout, variant 1 a single component. -/
inductive HomePartialResult where
  | layout (components : List HomeComponent)
  | component (c : HomeComponent)
  deriving DecidableEq, Repr

/-- The accumulator key: `component.title ?? _idx_<current size>`. -/
def partialKey (m : List (String × HomeComponent)) (c : HomeComponent) : String :=
  match c.title with
  | some t => t
  | none => "_idx_" ++ toString m.length

/-- Insert one emission into the accumulator. -/
def applyPartial (m : List (String × HomeComponent)) (p : HomePartialResult) :
    List (String × HomeComponent) :=
  match p with
  | HomePartialResult.layout cs => cs.foldl (fun acc c => aset acc (partialKey acc c) c) m
  | HomePartialResult.component c => aset m (partialKey m c) c

/-- Run a sequence of emissions through the `onPartialHomeBytes`
callback: the final accumulator together with the layouts handed to the
caller's `onPartial` (one per emission whose resulting accumulator is
non-empty). -/
def runPartials (ps : List HomePartialResult) :
    List (String × HomeComponent) × List (List HomeComponent) :=
  ps.foldl
    (fun acc p =>
      let m1 := applyPartial acc.1 p
      (m1, if 0 < m1.length then acc.2 ++ [m1.map Prod.snd] else acc.2))
    ([], [])

/-- The layout `getHomeImpl` returns: the accumulated partial components
when any exist, else the decoded final layout, else `null`. -/
def getHomeResult (ps : List HomePartialResult)
    (finalLayout : List HomeComponent) : Option (List HomeComponent) :=
  let m := (runPartials ps).1
  if 0 < m.length then some (m.map Prod.snd)
  else if 0 < finalLayout.length then some finalLayout
  else none

/-! ## Resource-table operation sequences (for the table invariant)

The operations a plugin call can perform against the table, applied from
a fresh store. -/

/-- One resource-table operation. -/
inductive TableOp where
  | alloc (now : Int) (v : StdValue)
  | createReq (now : Int) (method : Int)
  | retain (rid : Int)
  | release (rid : Int)
  | destroy (rid : Int)
  | forceRemove (rid : Int)

/-- Apply one operation (return values discarded). -/
def applyOp (s : Store) (op : TableOp) : Store :=
  match op with
  | TableOp.alloc now v => (storeStdValue now v s).2
  | TableOp.createReq now m => (createRequest now m s).2
  | TableOp.retain rid => retainStdValue s rid
  | TableOp.release rid => removeStdValue s rid
  | TableOp.destroy rid => (destroyResource s rid).2
  | TableOp.forceRemove rid => forceRemoveStdValue s rid

/-- Run a sequence of operations from a fresh store. -/
def runOps (ops : List TableOp) : Store := ops.foldl applyOp Store.init

/-- Kind-consistency of one rid, expressed over its kind-map entry and
the presence bits of the two payload maps: a `request` kind has its
payload in the request map (and none in the descriptor map), any other
kind has its payload in the descriptor map, and a rid absent from the
kind map is absent from both payload maps. -/
def typedMaps (kind : Option ResourceType) (descSome reqSome : Bool) : Prop :=
  (kind = none → descSome = false ∧ reqSome = false) ∧
  (kind = some ResourceType.request → reqSome = true ∧ descSome = false) ∧
  (∀ t : ResourceType, t ≠ ResourceType.request → kind = some t →
    descSome = true ∧ reqSome = false)

/-- Kind-consistency of one rid of a store. -/
def typedAt (s : Store) (a : Int) : Prop :=
  typedMaps (alookup s.resources a) (alookup s.descriptors a).isSome
    (alookup s.requests a).isSome

/-- The table invariant: no duplicate keys, all keys bounded by the rid
counter, and every rid kind-consistent. -/
def TableInv (s : Store) : Prop :=
  (s.descriptors.map Prod.fst).Nodup ∧
  (s.requests.map Prod.fst).Nodup ∧
  (s.resources.map Prod.fst).Nodup ∧
  (∀ rid ∈ s.descriptors.map Prod.fst, rid ≤ s.ridCounter) ∧
  (∀ rid ∈ s.requests.map Prod.fst, rid ≤ s.ridCounter) ∧
  (∀ rid ∈ s.resources.map Prod.fst, rid ≤ s.ridCounter) ∧
  (∀ rid : Int, typedAt s rid)

/-! ## Concrete fixtures for witnesses -/

/-- A bridge that always throws. -/
def errorBridge : BridgeRequest → Except String BridgeResponse :=
  fun _ => Except.error "network failure"

/-- A bridge that answers 200 with the given headers and an empty body. -/
def okBridge (headers : List (String × String)) :
    BridgeRequest → Except String BridgeResponse :=
  fun _ => Except.ok ⟨200, headers, "", some []⟩

/-- Hostname table for the cookie scenario (the model of `new URL`). -/
def c7Host : String → Option String := fun u =>
  if u = "https://x.y/a" ∨ u = "https://x.y/b" then some "x.y"
  else if u = "https://sub.x.y/c" then some "sub.x.y"
  else if u = "https://z/" then some "z"
  else none

/-- Cookie scenario, step 1: a request to `https://x.y/a`. -/
def c7s2 : Store :=
  (set_url c7Host (net_init 0 0 Store.init).2 1 "https://x.y/a").2

/-- Step 2: its response carries `Set-Cookie: a=1; Path=/`. -/
def c7s3 : Store :=
  (send c7Host (okBridge [("Set-Cookie", "a=1; Path=/")]) c7s2 1).2

/-- Step 3: a second request to `https://x.y/b`, sent. -/
def c7s6 : Store :=
  (send c7Host (okBridge [])
    (set_url c7Host (net_init 1000 0 c7s3).2 2 "https://x.y/b").2 2).2

/-- Step 4: a request to the subdomain `https://sub.x.y/c` carrying an
explicit `Cookie: b=2` header, sent. -/
def c7s10 : Store :=
  (send c7Host (okBridge [])
    (set_header
      (set_url c7Host (net_init 2000 0 c7s6).2 3 "https://sub.x.y/c").2
      3 "Cookie" "b=2").2 3).2

/-- Step 5: a request to the unrelated host `https://z/`, sent. -/
def c7s13 : Store :=
  (send c7Host (okBridge [])
    (set_url c7Host (net_init 3000 0 c7s10).2 4 "https://z/").2 4).2

/-- Store fixture for the C5 witness: one request with a url set. -/
def c5Store : Store :=
  (set_url (fun _ => some "x.y") (net_init 0 0 Store.init).2 1 "https://x.y/a").2

/-- The request held by `c5Store` under rid 1. -/
def c5Req : WasmRequest :=
  ⟨1, some "https://x.y/a", some "GET",
    [("User-Agent", DEFAULT_USER_AGENT)], none, none, 0⟩

/-- Store fixture for the C8 witness: two descriptors, rids 1 and 2. -/
def c8Store : Store :=
  (storeStdValue 0 StdValue.null (storeStdValue 0 (StdValue.int 5) Store.init).2).2

/-! # Theorems -/

/-! ## Association-list lemmas -/

theorem alookup_eq_none {α β : Type} [DecidableEq α] (m : List (α × β)) (k : α)
    (h : k ∉ m.map Prod.fst) : alookup m k = none := by
  induction m with
  | nil => rfl
  | cons hd tl ih =>
    obtain ⟨k1, v1⟩ := hd
    simp only [List.map_cons, List.mem_cons, not_or] at h
    have hne : k1 ≠ k := fun hh => h.1 hh.symm
    simp [alookup, hne, ih h.2]

theorem alookup_aset {α β : Type} [DecidableEq α] (m : List (α × β)) (k k1 : α)
    (v : β) :
    alookup (aset m k v) k1 = if k1 = k then some v else alookup m k1 := by
  induction m with
  | nil =>
    by_cases h : k1 = k
    · simp [aset, alookup, h]
    · have hne : k ≠ k1 := fun hh => h hh.symm
      simp [aset, alookup, h, hne]
  | cons hd tl ih =>
    obtain ⟨k2, v2⟩ := hd
    by_cases h2 : k2 = k
    · subst h2
      by_cases h : k2 = k1
      · subst h; simp [aset, alookup]
      · have hne : k1 ≠ k2 := fun hh => h hh.symm
        simp [aset, alookup, h, hne]
    · by_cases h3 : k2 = k1
      · subst h3
        simp [aset, alookup, h2]
      · have hne : k1 ≠ k2 := fun hh => h3 hh.symm
        simp [aset, alookup, h2, h3, ih]

theorem keys_aset_of_mem {α β : Type} [DecidableEq α] (m : List (α × β)) (k : α)
    (v : β) (hk : k ∈ m.map Prod.fst) :
    (aset m k v).map Prod.fst = m.map Prod.fst := by
  induction m with
  | nil => simp at hk
  | cons hd tl ih =>
    obtain ⟨k2, v2⟩ := hd
    by_cases h2 : k2 = k
    · subst h2; simp [aset]
    · simp only [List.map_cons, List.mem_cons] at hk
      rcases hk with hk | hk
      · exact absurd hk.symm h2
      · simp [aset, h2, ih hk]

theorem alookup_aerase {α β : Type} [DecidableEq α] (m : List (α × β)) (k k1 : α)
    (hnd : (m.map Prod.fst).Nodup) :
    alookup (aerase m k) k1 = if k1 = k then none else alookup m k1 := by
  induction m with
  | nil => by_cases h : k1 = k <;> simp [aerase, alookup, h]
  | cons hd tl ih =>
    obtain ⟨k2, v2⟩ := hd
    simp only [List.map_cons, List.nodup_cons] at hnd
    by_cases h2 : k2 = k
    · subst h2
      by_cases h : k1 = k2
      · subst h
        simp [aerase, alookup_eq_none tl k1 hnd.1]
      · have hne : k2 ≠ k1 := fun hh => h hh.symm
        simp [aerase, alookup, h, hne]
    · by_cases h : k1 = k
      · subst h
        have hne : k2 ≠ k1 := fun hh => h2 hh
        simp [aerase, alookup, h2, hne, ih hnd.2]
      · by_cases h3 : k2 = k1
        · subst h3
          simp [aerase, alookup, h2, h]
        · have hne : k1 ≠ k2 := fun hh => h3 hh.symm
          simp [aerase, alookup, h2, h3, ih hnd.2, h]

theorem keys_aerase_sublist {α β : Type} [DecidableEq α] (m : List (α × β))
    (k : α) : ((aerase m k).map Prod.fst).Sublist (m.map Prod.fst) := by
  induction m with
  | nil => simp [aerase]
  | cons hd tl ih =>
    obtain ⟨k2, v2⟩ := hd
    by_cases h2 : k2 = k
    · simp only [aerase, if_pos h2, List.map_cons]
      exact List.sublist_cons_self k2 (tl.map Prod.fst)
    · simpa [aerase, h2] using ih.cons₂ k2

theorem nodup_keys_aerase {α β : Type} [DecidableEq α] (m : List (α × β)) (k : α)
    (hnd : (m.map Prod.fst).Nodup) : ((aerase m k).map Prod.fst).Nodup :=
  (keys_aerase_sublist m k).nodup hnd

/-! ## Varint unfolding -/

theorem encodeVarint_eq (val : Nat) :
    encodeVarint val =
      if 128 ≤ val then (val % 128 + 128) :: encodeVarint (val / 128)
      else [val] := by
  rw [encodeVarint]
  split <;> simp

/-! ## C9 — zigzag varint encoder outputs -/

theorem encodeVarint_lt (val : Nat) (h : val < 128) : encodeVarint val = [val] := by
  rw [encodeVarint_eq, if_neg (Nat.not_le.mpr h)]

theorem encodeVarint_two (val : Nat) (h1 : 128 ≤ val) (h2 : val < 16384) :
    encodeVarint val = [val % 128 + 128, val / 128] := by
  rw [encodeVarint_eq, if_pos h1,
    encodeVarint_lt (val / 128) (Nat.div_lt_of_lt_mul (by omega))]

/-- C9.  The signed-integer (zigzag LEB128 varint) encoder produces, for
inputs 0, 1, −1, 100 and −100, the byte sequences `00`, `02`, `01`,
`c8 01` and `c7 01` respectively. -/
theorem c9_encodeI32_values :
    encodeI32 0 = [0x00] ∧ encodeI32 1 = [0x02] ∧ encodeI32 (-1) = [0x01] ∧
    encodeI32 100 = [0xc8, 0x01] ∧ encodeI32 (-100) = [0xc7, 0x01] := by
  refine ⟨?_, ?_, ?_, ?_, ?_⟩
  · have h : encodeI32 0 = encodeVarint 0 := rfl
    rw [h, encodeVarint_lt 0 (by norm_num)]
  · have h : encodeI32 1 = encodeVarint 2 := rfl
    rw [h, encodeVarint_lt 2 (by norm_num)]
  · have h : encodeI32 (-1) = encodeVarint 1 := rfl
    rw [h, encodeVarint_lt 1 (by norm_num)]
  · have h : encodeI32 100 = encodeVarint 200 := rfl
    rw [h, encodeVarint_two 200 (by norm_num) (by norm_num)]
  · have h : encodeI32 (-100) = encodeVarint 199 := rfl
    rw [h, encodeVarint_two 199 (by norm_num) (by norm_num)]

/-! ## C2 — modern-ABI result-pointer reads -/

/-- C2.  For a modern-ABI result pointer `p`: a non-positive `p` yields
no payload; a header length `L ≤ 8` yields no payload; otherwise (with
the reads in bounds) the payload is exactly the `L − 8` bytes starting
at `p + 8`.  The dispatcher's own copy `readResult` agrees with
`readResultPayload` everywhere. -/
theorem c2_readResultPayload_spec (mem : List Nat) (ptr : Int) :
    (ptr ≤ 0 → readResultPayload mem ptr = none) ∧
    (0 < ptr → ptr.toNat + 4 ≤ mem.length →
      (getInt32LE mem ptr.toNat ≤ 8 → readResultPayload mem ptr = none) ∧
      (8 < getInt32LE mem ptr.toNat →
        ptr.toNat + 8 + (getInt32LE mem ptr.toNat - 8).toNat ≤ mem.length →
        readResultPayload mem ptr =
          some ((mem.drop (ptr.toNat + 8)).take
            (getInt32LE mem ptr.toNat - 8).toNat) ∧
        ((mem.drop (ptr.toNat + 8)).take
            (getInt32LE mem ptr.toNat - 8).toNat).length =
          (getInt32LE mem ptr.toNat - 8).toNat)) ∧
    readResult mem ptr = readResultPayload mem ptr := by
  refine ⟨?_, ?_, ?_⟩
  · intro h
    simp [readResultPayload, h]
  · intro hpos hbounds
    have hnot : ¬ ptr ≤ 0 := by omega
    constructor
    · intro hlen
      simp only [readResultPayload, if_neg hnot]
      rw [if_neg (by omega), if_pos hlen]
    · intro hlen hfit
      constructor
      · simp only [readResultPayload, if_neg hnot]
        rw [if_neg (by omega), if_neg (by omega), if_neg (by omega)]
      · rw [List.length_take, List.length_drop]
        omega
  · by_cases h : ptr ≤ 0
    · simp [readResult, readResultPayload, h]
    · simp only [readResult, readResultPayload, if_neg h]

/-- Witness for C2 at a concrete memory: header length 11 at pointer 1
yields the three bytes after the header. -/
theorem c2_readResultPayload_witness :
    readResultPayload [99, 11, 0, 0, 0, 0, 0, 0, 0, 42, 43, 44] 1 =
      some [42, 43, 44] := by
  have h := (c2_readResultPayload_spec [99, 11, 0, 0, 0, 0, 0, 0, 0, 42, 43, 44] 1).2.1
    (by norm_num) (by norm_num)
  have h2 := h.2 (by decide) (by decide)
  rw [h2.1]
  decide

/-! ## C3 — ABI detection -/

/-- Counterexample to C3.  A plugin whose only relevant export is the
two-argument legacy `get_manga_list` is detected as modern, while the
claim requires legacy mode: the detector never consults
`get_manga_list`. -/
theorem c3_counterexample :
    detectRuntimeMode ["get_manga_list"] = RuntimeMode.aidokuRs ∧
    detectRuntimeMode ["get_manga_list"] ≠ RuntimeMode.legacy := by
  constructor <;> decide

/-- C3 (amended).  Mode is modern when `get_search_manga_list` or
`get_manga_update` is exported; otherwise legacy when `get_manga_details`
or `get_chapter_list` is exported (`get_manga_list` is not consulted);
otherwise modern by default. -/
theorem c3_detectRuntimeMode_amended (exports : List String) :
    detectRuntimeMode exports = RuntimeMode.legacy ↔
      (("get_search_manga_list" ∉ exports ∧ "get_manga_update" ∉ exports) ∧
        ("get_manga_details" ∈ exports ∨ "get_chapter_list" ∈ exports)) := by
  simp only [detectRuntimeMode]
  by_cases h1 : "get_search_manga_list" ∈ exports <;>
    by_cases h2 : "get_manga_update" ∈ exports <;>
      by_cases h3 : "get_manga_details" ∈ exports <;>
        by_cases h4 : "get_chapter_list" ∈ exports <;>
          simp [h1, h2, h3, h4, List.contains, List.elem_iff]

/-! ## C7 — cookie jar flow -/

/-- C7.  After a `Set-Cookie: a=1; Path=/` response for a request to
host `x.y`, the jar holds the first `name=value` token under the key
`x.y:a`; a later request to `x.y` carries `Cookie: a=1`, a request to
the subdomain `sub.x.y` with an explicit `Cookie: b=2` carries
`Cookie: a=1; b=2` (stored cookies first), and a request to the
unrelated host `z` carries no `Cookie` header at all. -/
theorem c7_cookie_flow :
    c7s3.cookies = [("x.y:a", "1")] ∧
    (alookup c7s6.requests 2).map (fun r => alookup r.headers "Cookie") =
      some (some "a=1") ∧
    (alookup c7s10.requests 3).map (fun r => alookup r.headers "Cookie") =
      some (some "a=1; b=2") ∧
    (alookup c7s13.requests 4).map (fun r => alookup r.headers "Cookie") =
      some none := by
  refine ⟨?_, ?_, ?_, ?_⟩ <;> rfl

/-! ## C10 — partial home accumulator -/

/-- C10.  (i) Re-emitting a component whose title is already a key of
the accumulator replaces the stored component in place: the key sequence
(and hence component order) is unchanged and the new component is stored
under that title.  (ii) The `onPartial` callback only ever receives a
non-empty layout.  (iii) When any partial component was accumulated, the
final returned layout is exactly the accumulator's values in
first-emission order. -/
theorem c10_home_accumulator :
    (∀ (m : List (String × HomeComponent)) (c : HomeComponent) (t : String),
      c.title = some t → t ∈ m.map Prod.fst →
      (applyPartial m (HomePartialResult.component c)).map Prod.fst =
        m.map Prod.fst ∧
      alookup (applyPartial m (HomePartialResult.component c)) t = some c) ∧
    (∀ (ps : List HomePartialResult) (l : List HomeComponent),
      l ∈ (runPartials ps).2 → l ≠ []) ∧
    (∀ (ps : List HomePartialResult) (finalLayout : List HomeComponent),
      (runPartials ps).1 ≠ [] →
      getHomeResult ps finalLayout = some ((runPartials ps).1.map Prod.snd)) := by
  refine ⟨?_, ?_, ?_⟩
  · intro m c t ht hmem
    have hkey : partialKey m c = t := by simp [partialKey, ht]
    constructor
    · simp only [applyPartial, hkey]
      exact keys_aset_of_mem m t c hmem
    · simp [applyPartial, hkey, alookup_aset]
  · intro ps
    suffices h : ∀ (start : List (String × HomeComponent))
        (cbs : List (List HomeComponent)),
        (∀ l ∈ cbs, l ≠ []) →
        ∀ l ∈ (ps.foldl
          (fun acc p =>
            let m1 := applyPartial acc.1 p
            (m1, if 0 < m1.length then acc.2 ++ [m1.map Prod.snd] else acc.2))
          (start, cbs)).2, l ≠ [] by
      intro l hl
      exact h [] [] (by simp) l hl
    induction ps with
    | nil => intro start cbs hcbs l hl; exact hcbs l hl
    | cons p ps ih =>
      intro start cbs hcbs l hl
      simp only [List.foldl_cons] at hl
      refine ih (applyPartial start p) _ ?_ l hl
      intro l2 hl2
      by_cases hlen : 0 < (applyPartial start p).length
      · simp only [if_pos hlen, List.mem_append, List.mem_singleton] at hl2
        rcases hl2 with hl2 | hl2
        · exact hcbs l2 hl2
        · subst hl2
          intro hnil
          rw [List.map_eq_nil_iff] at hnil
          simp [hnil] at hlen
      · simp only [if_neg hlen] at hl2
        exact hcbs l2 hl2
  · intro ps finalLayout hne
    have hlen : 0 < (runPartials ps).1.length := List.length_pos.mpr hne
    simp only [getHomeResult, if_pos hlen]

/-- Witness for C10: replacing the titled component `"A"` in a
one-entry accumulator keeps it in place, a concrete emission stream
invokes the callback with a non-empty layout, and the accumulated
component wins over the final layout. -/
theorem c10_home_accumulator_witness :
    (applyPartial [("A", ⟨some "A", none, 1⟩)]
        (HomePartialResult.component ⟨some "A", none, 2⟩)).map Prod.fst = ["A"] ∧
    alookup (applyPartial [("A", ⟨some "A", none, 1⟩)]
        (HomePartialResult.component ⟨some "A", none, 2⟩)) "A" =
      some ⟨some "A", none, 2⟩ ∧
    ([(⟨some "A", none, 1⟩ : HomeComponent)] ≠ []) ∧
    getHomeResult [HomePartialResult.component ⟨some "A", none, 1⟩]
        [⟨some "B", none, 9⟩] = some [⟨some "A", none, 1⟩] := by
  refine ⟨?_, ?_, ?_, ?_⟩
  · exact (c10_home_accumulator.1 [("A", ⟨some "A", none, 1⟩)]
      ⟨some "A", none, 2⟩ "A" rfl (by decide)).1
  · exact (c10_home_accumulator.1 [("A", ⟨some "A", none, 1⟩)]
      ⟨some "A", none, 2⟩ "A" rfl (by decide)).2
  · exact c10_home_accumulator.2.1
      [HomePartialResult.component ⟨some "A", none, 1⟩]
      [⟨some "A", none, 1⟩] (by decide)
  · exact (c10_home_accumulator.2.2
      [HomePartialResult.component ⟨some "A", none, 1⟩]
      [⟨some "B", none, 9⟩] (by decide)).trans (by decide)

/-! ## C4 — `std.buffer_len` -/

/-- Counterexample to C4.  For a rid holding the string `"hi"`,
`buffer_len` returns the raw UTF-8 length 2 and caches the raw bytes
`[104, 105]`, whereas the postcard encoding of `"hi"` is the 3-byte
length-prefixed `[2, 104, 105]`: the claimed in-place postcard encoding
(and returned postcard length) does not happen for plain strings. -/
theorem c4_counterexample :
    (buffer_len (storeStdValue 0 (StdValue.str "hi") Store.init).2 1).1 = 2 ∧
    encodeString "hi" = [2, 104, 105] ∧
    ((buffer_len (storeStdValue 0 (StdValue.str "hi") Store.init).2 1).1 ≠
      ((encodeString "hi").length : Int)) ∧
    readStdValue (buffer_len (storeStdValue 0 (StdValue.str "hi") Store.init).2 1).2 1 =
      some (StdValue.bytes [104, 105]) := by
  have henc : encodeString "hi" = encodeVarint 2 ++ [104, 105] := rfl
  have h2 : encodeString "hi" = [2, 104, 105] := by
    rw [henc, encodeVarint_lt 2 (by norm_num)]
    rfl
  refine ⟨rfl, h2, ?_, rfl⟩
  rw [h2]
  decide

/-- C4 (amended).  `buffer_len` returns the byte length of a raw-bytes
payload unchanged; a string payload is cached in place (via update) as
its **raw UTF-8** bytes — with the raw byte length returned, not a
postcard length; an array-of-strings payload is cached as its postcard
vec-of-strings encoding with the encoded length returned; a negative or
unknown rid returns −1.  (The last conjunct additionally settles the
remaining payload shapes — null, bool, int, object, an array holding a
non-string — which all return −1 and leave the store untouched.) -/
theorem c4_buffer_len_amended (s : Store) (d : Int) :
    (d < 0 → buffer_len s d = (-1, s)) ∧
    (0 ≤ d → readStdValue s d = none → buffer_len s d = (-1, s)) ∧
    (∀ bs, 0 ≤ d → readStdValue s d = some (StdValue.bytes bs) →
      buffer_len s d = ((bs.length : Int), s)) ∧
    (∀ t, 0 ≤ d → readStdValue s d = some (StdValue.str t) →
      buffer_len s d = (((utf8Encode t).length : Int),
        updateStdValue s d (StdValue.bytes (utf8Encode t)))) ∧
    (∀ vs ss, 0 ≤ d → readStdValue s d = some (StdValue.arr vs) →
      asStrings vs = some ss →
      buffer_len s d = (((encodeVecString ss).length : Int),
        updateStdValue s d (StdValue.bytes (encodeVecString ss)))) ∧
    (∀ v, 0 ≤ d → readStdValue s d = some v →
      (∀ bs, v ≠ StdValue.bytes bs) → (∀ t, v ≠ StdValue.str t) →
      (∀ vs, v = StdValue.arr vs → asStrings vs = none) →
      buffer_len s d = (-1, s)) := by
  refine ⟨?_, ?_, ?_, ?_, ?_, ?_⟩
  · intro h
    simp [buffer_len, h]
  · intro hd h
    simp [buffer_len, h, Int.not_lt.mpr hd]
  · intro bs hd h
    simp [buffer_len, h, Int.not_lt.mpr hd]
  · intro t hd h
    simp [buffer_len, h, Int.not_lt.mpr hd]
  · intro vs ss hd h hss
    simp [buffer_len, h, hss, Int.not_lt.mpr hd]
  · intro v hd h hbs ht harr
    cases v with
    | null => simp [buffer_len, h, Int.not_lt.mpr hd]
    | bool b => simp [buffer_len, h, Int.not_lt.mpr hd]
    | int n => simp [buffer_len, h, Int.not_lt.mpr hd]
    | str t => exact absurd rfl (ht t)
    | bytes bs => exact absurd rfl (hbs bs)
    | arr vs => simp [buffer_len, h, harr vs rfl, Int.not_lt.mpr hd]
    | obj fields => simp [buffer_len, h, Int.not_lt.mpr hd]

/-- Witness for C4 (amended), at a store holding the string `"ab"` under
rid 1 (raw UTF-8 length 2, cached bytes `[97, 98]`) and at a store
holding the int 7 under rid 1 (−1, store untouched). -/
theorem c4_buffer_len_witness :
    buffer_len (storeStdValue 0 (StdValue.str "ab") Store.init).2 1 =
      ((2 : Int),
        updateStdValue (storeStdValue 0 (StdValue.str "ab") Store.init).2 1
          (StdValue.bytes [97, 98])) ∧
    buffer_len (storeStdValue 0 (StdValue.int 7) Store.init).2 1 =
      (-1, (storeStdValue 0 (StdValue.int 7) Store.init).2) := by
  constructor
  · exact (c4_buffer_len_amended (storeStdValue 0 (StdValue.str "ab") Store.init).2
      1).2.2.2.1 "ab" (by norm_num) rfl
  · exact (c4_buffer_len_amended (storeStdValue 0 (StdValue.int 7) Store.init).2
      1).2.2.2.2.2 (StdValue.int 7) (by norm_num) rfl
      (fun bs h => by cases h) (fun t h => by cases h) (fun vs h => by cases h)

/-! ## More association-list lemmas (for the lifecycle claims) -/

theorem mem_keys_aset {α β : Type} [DecidableEq α] (m : List (α × β)) (k : α)
    (v : β) (a : α) :
    a ∈ (aset m k v).map Prod.fst ↔ a = k ∨ a ∈ m.map Prod.fst := by
  induction m with
  | nil => simp [aset]
  | cons hd tl ih =>
    obtain ⟨k1, v1⟩ := hd
    by_cases h1 : k1 = k
    · subst h1
      simp [aset]
    · simp [aset, h1, ih]
      tauto

theorem nodup_keys_aset {α β : Type} [DecidableEq α] (m : List (α × β)) (k : α)
    (v : β) (hnd : (m.map Prod.fst).Nodup) :
    ((aset m k v).map Prod.fst).Nodup := by
  induction m with
  | nil => simp [aset]
  | cons hd tl ih =>
    obtain ⟨k1, v1⟩ := hd
    simp only [List.map_cons, List.nodup_cons] at hnd
    by_cases h1 : k1 = k
    · subst h1
      have hset : aset ((k1, v1) :: tl) k1 v = (k1, v) :: tl := by simp [aset]
      rw [hset]
      simp only [List.map_cons, List.nodup_cons]
      exact hnd
    · simp only [aset, if_neg h1, List.map_cons, List.nodup_cons]
      refine ⟨?_, ih hnd.2⟩
      rw [mem_keys_aset]
      rintro (h | h)
      · exact h1 (h ▸ rfl)
      · exact hnd.1 h

theorem aset_aset {α β : Type} [DecidableEq α] (m : List (α × β)) (k : α)
    (v w : β) : aset (aset m k v) k w = aset m k w := by
  induction m with
  | nil => simp [aset]
  | cons hd tl ih =>
    obtain ⟨k1, v1⟩ := hd
    by_cases h1 : k1 = k
    · subst h1; simp [aset]
    · simp [aset, h1, ih]

theorem aset_lookup_self {α β : Type} [DecidableEq α] (m : List (α × β)) (k : α)
    (v : β) (h : alookup m k = some v) : aset m k v = m := by
  induction m with
  | nil => simp [alookup] at h
  | cons hd tl ih =>
    obtain ⟨k1, v1⟩ := hd
    by_cases h1 : k1 = k
    · subst h1
      simp [alookup] at h
      simp [aset, h]
    · simp only [alookup, if_neg h1] at h
      simp [aset, h1, ih h]

theorem alookup_isSome_iff {α β : Type} [DecidableEq α] (m : List (α × β))
    (k : α) : (alookup m k).isSome = true ↔ k ∈ m.map Prod.fst := by
  induction m with
  | nil => simp [alookup]
  | cons hd tl ih =>
    obtain ⟨k1, v1⟩ := hd
    by_cases h1 : k1 = k
    · subst h1; simp [alookup]
    · have hne : k ≠ k1 := fun hh => h1 hh.symm
      simp [alookup, h1, ih, hne]

/-! ## C6 — retain/release lifecycle -/

/-- Retaining `k` times rewrites the entry's refcount to `+ k`. -/
theorem retain_iter (s : Store) (d : Int) (e : DescriptorEntry) (k : Nat)
    (h : alookup s.descriptors d = some e) :
    (fun st => retainStdValue st d)^[k] s =
      { s with
        descriptors := aset s.descriptors d ⟨e.value, e.refCount + k, e.createdAt⟩ } := by
  induction k with
  | zero =>
    simp only [Function.iterate_zero, id_eq, Nat.cast_zero, add_zero]
    have : (⟨e.value, e.refCount, e.createdAt⟩ : DescriptorEntry) = e := rfl
    rw [this, aset_lookup_self s.descriptors d e h]
  | succ k ih =>
    rw [Function.iterate_succ_apply', ih]
    have hl : alookup (aset s.descriptors d ⟨e.value, e.refCount + k, e.createdAt⟩) d =
        some ⟨e.value, e.refCount + k, e.createdAt⟩ := by
      rw [alookup_aset, if_pos rfl]
    simp only [retainStdValue, hl]
    rw [aset_aset]
    have : (e.refCount + (k : Int)) + 1 = e.refCount + ((k : Int) + 1) := by ring
    simp [this]

/-- Releasing `k` times undoes `k` retains above a positive refcount. -/
theorem release_iter (s : Store) (d : Int) (e : DescriptorEntry) (k : Nat)
    (h : alookup s.descriptors d = some e) (h1 : 1 ≤ e.refCount) :
    (fun st => removeStdValue st d)^[k]
      { s with
        descriptors := aset s.descriptors d ⟨e.value, e.refCount + k, e.createdAt⟩ } = s := by
  induction k with
  | zero =>
    simp only [Function.iterate_zero, id_eq, Nat.cast_zero, add_zero]
    have he : (⟨e.value, e.refCount, e.createdAt⟩ : DescriptorEntry) = e := rfl
    rw [he, aset_lookup_self s.descriptors d e h]
  | succ k ih =>
    rw [Function.iterate_succ_apply]
    have hl : alookup (aset s.descriptors d ⟨e.value, e.refCount + (k + 1 : Nat), e.createdAt⟩) d =
        some ⟨e.value, e.refCount + (k + 1 : Nat), e.createdAt⟩ := by
      rw [alookup_aset, if_pos rfl]
    simp only [removeStdValue, hl]
    rw [if_neg (by push_cast; omega)]
    simp only [aset_aset]
    have harith : e.refCount + ((k : Nat) + 1 : Nat) - 1 = e.refCount + (k : Int) := by
      push_cast
      ring
    rw [harith]
    exact ih

/-- C6.  After allocation (refcount 1), `k` retains followed by `k`
releases leave the entry readable with its payload; one further release
removes it from both the descriptor map and the kind map, after which
`read` returns nothing. -/
theorem c6_retain_release (now : Int) (v : StdValue) (s : Store) (k : Nat)
    (hd : (s.descriptors.map Prod.fst).Nodup)
    (hr : (s.resources.map Prod.fst).Nodup) :
    readStdValue
      ((fun st => removeStdValue st (storeStdValue now v s).1)^[k]
        ((fun st => retainStdValue st (storeStdValue now v s).1)^[k]
          (storeStdValue now v s).2))
      (storeStdValue now v s).1 = some v ∧
    alookup (removeStdValue
      ((fun st => removeStdValue st (storeStdValue now v s).1)^[k]
        ((fun st => retainStdValue st (storeStdValue now v s).1)^[k]
          (storeStdValue now v s).2))
      (storeStdValue now v s).1).descriptors (storeStdValue now v s).1 = none ∧
    alookup (removeStdValue
      ((fun st => removeStdValue st (storeStdValue now v s).1)^[k]
        ((fun st => retainStdValue st (storeStdValue now v s).1)^[k]
          (storeStdValue now v s).2))
      (storeStdValue now v s).1).resources (storeStdValue now v s).1 = none ∧
    readStdValue (removeStdValue
      ((fun st => removeStdValue st (storeStdValue now v s).1)^[k]
        ((fun st => retainStdValue st (storeStdValue now v s).1)^[k]
          (storeStdValue now v s).2))
      (storeStdValue now v s).1) (storeStdValue now v s).1 = none := by
  set rid := (storeStdValue now v s).1 with hrid
  set s1 := (storeStdValue now v s).2 with hs1
  have hlook : alookup s1.descriptors rid = some ⟨v, 1, now⟩ := by
    rw [hs1, hrid]
    simp only [storeStdValue]
    rw [alookup_aset]
    simp
  have hcancel :
      (fun st => removeStdValue st rid)^[k]
        ((fun st => retainStdValue st rid)^[k] s1) = s1 := by
    rw [retain_iter s1 rid ⟨v, 1, now⟩ k hlook]
    exact release_iter s1 rid ⟨v, 1, now⟩ k hlook (by norm_num)
  rw [hcancel]
  have hnd1 : (s1.descriptors.map Prod.fst).Nodup := by
    rw [hs1]
    exact nodup_keys_aset _ _ _ hd
  have hnr1 : (s1.resources.map Prod.fst).Nodup := by
    rw [hs1]
    exact nodup_keys_aset _ _ _ hr
  have hrm : removeStdValue s1 rid =
      { s1 with
        descriptors := aerase s1.descriptors rid
        resources := aerase s1.resources rid } := by
    simp only [removeStdValue, hlook]
    rw [if_pos (by norm_num)]
  refine ⟨?_, ?_, ?_, ?_⟩
  · simp [readStdValue, hlook]
  · rw [hrm]
    simp [alookup_aerase _ _ _ hnd1]
  · rw [hrm]
    simp [alookup_aerase _ _ _ hnr1]
  · rw [hrm]
    simp [readStdValue, alookup_aerase _ _ _ hnd1]

/-- Witness for C6 at a fresh store, payload `"x"`, `k = 2`. -/
theorem c6_retain_release_witness :
    readStdValue
      ((fun st => removeStdValue st 1)^[2]
        ((fun st => retainStdValue st 1)^[2]
          (storeStdValue 0 (StdValue.str "x") Store.init).2)) 1 =
      some (StdValue.str "x") ∧
    alookup (removeStdValue
      ((fun st => removeStdValue st 1)^[2]
        ((fun st => retainStdValue st 1)^[2]
          (storeStdValue 0 (StdValue.str "x") Store.init).2)) 1).descriptors 1 =
      none := by
  have h := c6_retain_release 0 (StdValue.str "x") Store.init 2
    (by simp [Store.init]) (by simp [Store.init])
  exact ⟨h.1, h.2.1⟩

/-! ## C8 — scoped cleanup -/

/-- Force-removing a list of rids removes exactly those rids from the
descriptor table. -/
theorem alookup_foldl_forceRemove (l : List Int) (s : Store) (rid : Int)
    (hnd : (s.descriptors.map Prod.fst).Nodup) :
    alookup (l.foldl forceRemoveStdValue s).descriptors rid =
      if rid ∈ l then none else alookup s.descriptors rid := by
  induction l generalizing s with
  | nil => simp
  | cons k t ih =>
    have hnd2 : ((forceRemoveStdValue s k).descriptors.map Prod.fst).Nodup := by
      by_cases hk : (alookup s.descriptors k).isSome = true
      · simp only [forceRemoveStdValue, if_pos hk]
        exact nodup_keys_aerase _ _ hnd
      · simp only [forceRemoveStdValue, if_neg hk]
        exact hnd
    rw [List.foldl_cons, ih (forceRemoveStdValue s k) hnd2]
    by_cases hmem : rid ∈ t
    · simp [hmem]
    · simp only [if_neg hmem, List.mem_cons]
      by_cases hk : (alookup s.descriptors k).isSome = true
      · simp only [forceRemoveStdValue, if_pos hk]
        rw [alookup_aerase _ _ _ hnd]
        by_cases hr : rid = k
        · simp [hr, hmem]
        · simp [hr, hmem]
      · simp only [forceRemoveStdValue, if_neg hk]
        by_cases hr : rid = k
        · subst hr
          simp only [Option.isSome_iff_exists, not_exists] at hk
          have hnone : alookup s.descriptors rid = none := by
            cases h : alookup s.descriptors rid with
            | none => rfl
            | some e => exact absurd h (hk e)
          simp [hnone, hmem]
        · simp [hr, hmem]

/-- C8.  (i) Cleaning up a live scope removes exactly the tracked rids
from the descriptor table, regardless of reference counts, and no
others.  (ii) A second cleanup changes nothing.  (iii) Tracking on a
disposed scope throws. -/
theorem c8_scope_cleanup :
    (∀ (s : Store) (sc : DescriptorScope), sc.disposed = false →
      (s.descriptors.map Prod.fst).Nodup →
      ∀ rid : Int,
        alookup (DescriptorScope.cleanup s sc).1.descriptors rid =
          if rid ∈ sc.tracked then none else alookup s.descriptors rid) ∧
    (∀ (s : Store) (sc : DescriptorScope),
      DescriptorScope.cleanup (DescriptorScope.cleanup s sc).1
        (DescriptorScope.cleanup s sc).2 = DescriptorScope.cleanup s sc) ∧
    (∀ (sc : DescriptorScope) (d : Int), sc.disposed = true →
      DescriptorScope.track sc d =
        Except.error "Cannot track descriptor on disposed scope") := by
  refine ⟨?_, ?_, ?_⟩
  · intro s sc hdisp hnd rid
    simp only [DescriptorScope.cleanup, hdisp, Bool.false_eq_true, if_false]
    exact alookup_foldl_forceRemove sc.tracked s rid hnd
  · intro s sc
    by_cases hdisp : sc.disposed = true
    · simp [DescriptorScope.cleanup, hdisp]
    · simp only [Bool.not_eq_true] at hdisp
      simp [DescriptorScope.cleanup, hdisp]
  · intro sc d hdisp
    simp [DescriptorScope.track, hdisp]

/-- Witness for C8: on a store holding rids 1 and 2, cleaning up a scope
that tracked rid 1 removes rid 1, leaves rid 2, and a disposed scope
rejects tracking. -/
theorem c8_scope_cleanup_witness :
    alookup (DescriptorScope.cleanup c8Store ⟨[1], false⟩).1.descriptors 1 = none ∧
    alookup (DescriptorScope.cleanup c8Store ⟨[1], false⟩).1.descriptors 2 =
      alookup c8Store.descriptors 2 ∧
    DescriptorScope.cleanup (DescriptorScope.cleanup c8Store ⟨[1], false⟩).1
        (DescriptorScope.cleanup c8Store ⟨[1], false⟩).2 =
      DescriptorScope.cleanup c8Store ⟨[1], false⟩ ∧
    DescriptorScope.track ⟨[], true⟩ 3 =
      Except.error "Cannot track descriptor on disposed scope" := by
  refine ⟨?_, ?_, ?_, ?_⟩
  · exact (c8_scope_cleanup.1 c8Store ⟨[1], false⟩ rfl (by decide) 1).trans (by simp)
  · exact (c8_scope_cleanup.1 c8Store ⟨[1], false⟩ rfl (by decide) 2).trans (by simp)
  · exact c8_scope_cleanup.2.1 c8Store ⟨[1], false⟩
  · exact c8_scope_cleanup.2.2 ⟨[], true⟩ 3 rfl

/-! ## C5 — `net.send` error handling -/

/-- When the bridge throws, `send` installs the empty response and
returns −10 (with the request still present under its rid). -/
theorem send_bridge_error (hostnameOf : String → Option String)
    (bridge : BridgeRequest → Except String BridgeResponse)
    (s : Store) (d : Int) (req : WasmRequest) (url msg : String)
    (hd : ¬ d < 0) (hl : alookup s.requests d = some req)
    (hu : req.url = some url) (hne : ¬ url = "")
    (hb : ∀ r, bridge r = Except.error msg) :
    ∃ req1 : WasmRequest,
      send hostnameOf bridge s d =
        (-10,
          { s with
            requests := aset (aset s.requests d req1) d
              { req1 with response := some ⟨some [], some 0, [], 0⟩ } }) := by
  simp only [send, if_neg hd, hl, hu, if_neg hne, hb]
  exact ⟨_, rfl⟩

/-- C5.  For an existing request rid: `send` returns `MissingUrl` (−9)
and leaves the store unchanged when the url is unset; and when the
injected bridge throws, `send` returns `RequestError` (−10) and installs
an empty response (empty data, status 0, no headers, `bytesRead = 0`),
so `data_len` then answers 0 and `get_status_code` answers 0. -/
theorem c5_send_error_handling :
    (∀ (hostnameOf : String → Option String)
        (bridge : BridgeRequest → Except String BridgeResponse)
        (s : Store) (d : Int) (req : WasmRequest),
      ¬ d < 0 → alookup s.requests d = some req → req.url = none →
      send hostnameOf bridge s d = (-9, s)) ∧
    (∀ (hostnameOf : String → Option String)
        (bridge : BridgeRequest → Except String BridgeResponse)
        (s : Store) (d : Int) (req : WasmRequest) (url msg : String),
      ¬ d < 0 → alookup s.requests d = some req → req.url = some url →
      url ≠ "" → (∀ r, bridge r = Except.error msg) →
      (send hostnameOf bridge s d).1 = -10 ∧
      (∃ req2 : WasmRequest,
        alookup (send hostnameOf bridge s d).2.requests d = some req2 ∧
        req2.response = some ⟨some [], some 0, [], 0⟩) ∧
      data_len (send hostnameOf bridge s d).2 d = 0 ∧
      get_status_code (send hostnameOf bridge s d).2 d = 0) := by
  constructor
  · intro hostnameOf bridge s d req hd hl hu
    simp only [send, if_neg hd, hl, hu]
  · intro hostnameOf bridge s d req url msg hd hl hu hne hb
    obtain ⟨req1, hsend⟩ := send_bridge_error hostnameOf bridge s d req url msg
      hd hl hu hne hb
    have hlook2 :
        alookup (send hostnameOf bridge s d).2.requests d =
          some { req1 with response := some ⟨some [], some 0, [], 0⟩ } := by
      rw [hsend]
      simp [alookup_aset]
    refine ⟨by rw [hsend], ⟨_, hlook2, rfl⟩, ?_, ?_⟩
    · simp only [data_len, if_neg hd, hlook2]
      rfl
    · simp only [get_status_code, if_neg hd, hlook2]
      rfl

/-- Witness for C5 at a concrete one-request store and an
always-throwing bridge: the send reports −10, `data_len` 0 and
`get_status_code` 0; and a url-less request reports −9 untouched. -/
theorem c5_send_error_witness :
    send (fun _ => some "x.y") errorBridge (net_init 0 0 Store.init).2 1 =
      (-9, (net_init 0 0 Store.init).2) ∧
    (send (fun _ => some "x.y") errorBridge c5Store 1).1 = -10 ∧
    data_len (send (fun _ => some "x.y") errorBridge c5Store 1).2 1 = 0 ∧
    get_status_code (send (fun _ => some "x.y") errorBridge c5Store 1).2 1 = 0 := by
  have h2 := c5_send_error_handling.2 (fun _ => some "x.y") errorBridge c5Store 1
    c5Req "https://x.y/a" "network failure" (by norm_num) rfl rfl
    (by decide) (fun r => rfl)
  exact ⟨c5_send_error_handling.1 (fun _ => some "x.y") errorBridge
      (net_init 0 0 Store.init).2 1
      ⟨1, none, some "GET", [("User-Agent", DEFAULT_USER_AGENT)], none, none, 0⟩
      (by norm_num) rfl rfl,
    h2.1, h2.2.2.1, h2.2.2.2⟩

/-! ## C1 — payload-map / kind-map consistency -/

theorem typedMaps_none {descSome reqSome : Bool} (h1 : descSome = false)
    (h2 : reqSome = false) : typedMaps none descSome reqSome := by
  unfold typedMaps
  refine ⟨fun _ => ⟨h1, h2⟩, fun h => by simp at h, fun t _ h => by simp at h⟩

theorem typedMaps_request {descSome reqSome : Bool} (h1 : reqSome = true)
    (h2 : descSome = false) :
    typedMaps (some ResourceType.request) descSome reqSome := by
  unfold typedMaps
  refine ⟨fun h => by simp at h, fun _ => ⟨h1, h2⟩, fun t ht h => ?_⟩
  exact absurd (Option.some.inj h).symm ht

theorem typedMaps_other {descSome reqSome : Bool} (t : ResourceType)
    (ht : t ≠ ResourceType.request) (h1 : descSome = true)
    (h2 : reqSome = false) : typedMaps (some t) descSome reqSome := by
  unfold typedMaps
  refine ⟨fun h => by simp at h, fun h => absurd (Option.some.inj h) ht,
    fun _ _ _ => ⟨h1, h2⟩⟩

theorem mem_keys_aerase_subset {α β : Type} [DecidableEq α]
    (m : List (α × β)) (k a : α) (h : a ∈ (aerase m k).map Prod.fst) :
    a ∈ m.map Prod.fst :=
  (keys_aerase_sublist m k).subset h

theorem tableInv_init : TableInv Store.init := by
  unfold TableInv Store.init
  refine ⟨by simp, by simp, by simp, by simp, by simp, by simp, ?_⟩
  intro rid
  exact typedMaps_none rfl rfl

/-- The request map of a store never holds a rid whose descriptor-map
entry is present, given kind-consistency. -/
theorem reqSome_false_of_descSome (s : Store) (a : Int)
    (hta : typedAt s a) (h : (alookup s.descriptors a).isSome = true) :
    (alookup s.requests a).isSome = false := by
  unfold typedAt typedMaps at hta
  cases hk : alookup s.resources a with
  | none =>
    have := (hta.1 hk).1
    rw [this] at h
    exact nomatch h
  | some t =>
    cases t with
    | request =>
      have hfalse := (hta.2.1 hk).2
      rw [hfalse] at h
      exact nomatch h
    | stdValue => exact (hta.2.2 _ (by simp) hk).2
    | jsContext => exact (hta.2.2 _ (by simp) hk).2
    | canvas => exact (hta.2.2 _ (by simp) hk).2
    | image => exact (hta.2.2 _ (by simp) hk).2
    | font => exact (hta.2.2 _ (by simp) hk).2

/-- Symmetrically, the descriptor map never holds a rid whose
request-map entry is of kind `request`. -/
theorem descSome_false_of_kind_request (s : Store) (a : Int)
    (hta : typedAt s a) (hk : alookup s.resources a = some ResourceType.request) :
    (alookup s.descriptors a).isSome = false := by
  unfold typedAt typedMaps at hta
  exact (hta.2.1 hk).2

theorem tableInv_storeStdValue (now : Int) (v : StdValue) (s : Store)
    (h : TableInv s) : TableInv (storeStdValue now v s).2 := by
  obtain ⟨hd, hq, hr, bd, bq, br, ht⟩ := h
  have hfq : s.ridCounter + 1 ∉ s.requests.map Prod.fst := fun hmem => by
    have := bq _ hmem; omega
  unfold TableInv
  simp only [storeStdValue]
  refine ⟨nodup_keys_aset _ _ _ hd, hq, nodup_keys_aset _ _ _ hr, ?_, ?_, ?_, ?_⟩
  · intro a ha
    rw [mem_keys_aset] at ha
    rcases ha with ha | ha
    · omega
    · have := bd _ ha; omega
  · intro a ha
    have := bq _ ha; omega
  · intro a ha
    rw [mem_keys_aset] at ha
    rcases ha with ha | ha
    · omega
    · have := br _ ha; omega
  · intro a
    unfold typedAt
    by_cases ha : a = s.ridCounter + 1
    · rw [alookup_aset, if_pos ha, alookup_aset, if_pos ha]
      refine typedMaps_other ResourceType.stdValue (by simp) rfl ?_
      rw [alookup_eq_none s.requests a (ha ▸ hfq)]
      rfl
    · rw [alookup_aset, if_neg ha, alookup_aset, if_neg ha]
      exact ht a

theorem tableInv_createRequest (now : Int) (method : Int) (s : Store)
    (h : TableInv s) : TableInv (createRequest now method s).2 := by
  obtain ⟨hd, hq, hr, bd, bq, br, ht⟩ := h
  have hfd : s.ridCounter + 1 ∉ s.descriptors.map Prod.fst := fun hmem => by
    have := bd _ hmem; omega
  unfold TableInv
  simp only [createRequest]
  refine ⟨hd, nodup_keys_aset _ _ _ hq, nodup_keys_aset _ _ _ hr, ?_, ?_, ?_, ?_⟩
  · intro a ha
    have := bd _ ha; omega
  · intro a ha
    rw [mem_keys_aset] at ha
    rcases ha with ha | ha
    · omega
    · have := bq _ ha; omega
  · intro a ha
    rw [mem_keys_aset] at ha
    rcases ha with ha | ha
    · omega
    · have := br _ ha; omega
  · intro a
    unfold typedAt
    by_cases ha : a = s.ridCounter + 1
    · rw [alookup_aset, if_pos ha, alookup_aset, if_pos ha]
      refine typedMaps_request rfl ?_
      rw [alookup_eq_none s.descriptors a (ha ▸ hfd)]
      rfl
    · rw [alookup_aset, if_neg ha, alookup_aset, if_neg ha]
      exact ht a

theorem tableInv_retain (s : Store) (d : Int) (h : TableInv s) :
    TableInv (retainStdValue s d) := by
  obtain ⟨hd, hq, hr, bd, bq, br, ht⟩ := h
  cases hl : alookup s.descriptors d with
  | none =>
    simp only [retainStdValue, hl]
    exact ⟨hd, hq, hr, bd, bq, br, ht⟩
  | some e =>
    simp only [retainStdValue, hl]
    have hmem : d ∈ s.descriptors.map Prod.fst :=
      (alookup_isSome_iff _ _).mp (by rw [hl]; rfl)
    have hkeys : (aset s.descriptors d
        { e with refCount := e.refCount + 1 }).map Prod.fst =
        s.descriptors.map Prod.fst := keys_aset_of_mem _ _ _ hmem
    unfold TableInv
    refine ⟨by rw [hkeys]; exact hd, hq, hr, by rw [hkeys]; exact bd, bq, br, ?_⟩
    intro a
    unfold typedAt
    by_cases ha : a = d
    · subst ha
      rw [alookup_aset, if_pos rfl]
      have hta := ht a
      unfold typedAt at hta
      rw [hl] at hta
      simpa using hta
    · rw [alookup_aset, if_neg ha]
      exact ht a

theorem tableInv_release (s : Store) (d : Int) (h : TableInv s) :
    TableInv (removeStdValue s d) := by
  obtain ⟨hd, hq, hr, bd, bq, br, ht⟩ := h
  cases hl : alookup s.descriptors d with
  | none =>
    simp only [removeStdValue, hl]
    exact ⟨hd, hq, hr, bd, bq, br, ht⟩
  | some e =>
    by_cases hrc : e.refCount - 1 ≤ 0
    · simp only [removeStdValue, hl, if_pos hrc]
      unfold TableInv
      refine ⟨nodup_keys_aerase _ _ hd, hq, nodup_keys_aerase _ _ hr, ?_, bq, ?_, ?_⟩
      · intro a ha
        exact bd _ (mem_keys_aerase_subset _ _ _ ha)
      · intro a ha
        exact br _ (mem_keys_aerase_subset _ _ _ ha)
      · intro a
        unfold typedAt
        by_cases ha : a = d
        · subst ha
          rw [alookup_aerase _ _ _ hr, if_pos rfl, alookup_aerase _ _ _ hd,
            if_pos rfl]
          refine typedMaps_none rfl ?_
          exact reqSome_false_of_descSome s a (ht a) (by rw [hl]; rfl)
        · rw [alookup_aerase _ _ _ hr, if_neg ha, alookup_aerase _ _ _ hd,
            if_neg ha]
          exact ht a
    · simp only [removeStdValue, hl, if_neg hrc]
      have hmem : d ∈ s.descriptors.map Prod.fst :=
        (alookup_isSome_iff _ _).mp (by rw [hl]; rfl)
      have hkeys : (aset s.descriptors d
          { e with refCount := e.refCount - 1 }).map Prod.fst =
          s.descriptors.map Prod.fst := keys_aset_of_mem _ _ _ hmem
      unfold TableInv
      refine ⟨by rw [hkeys]; exact hd, hq, hr, by rw [hkeys]; exact bd, bq, br, ?_⟩
      intro a
      unfold typedAt
      by_cases ha : a = d
      · subst ha
        rw [alookup_aset, if_pos rfl]
        have hta := ht a
        unfold typedAt at hta
        rw [hl] at hta
        simpa using hta
      · rw [alookup_aset, if_neg ha]
        exact ht a

theorem tableInv_forceRemove (s : Store) (d : Int) (h : TableInv s) :
    TableInv (forceRemoveStdValue s d) := by
  obtain ⟨hd, hq, hr, bd, bq, br, ht⟩ := h
  by_cases hl : (alookup s.descriptors d).isSome = true
  · simp only [forceRemoveStdValue, if_pos hl]
    unfold TableInv
    refine ⟨nodup_keys_aerase _ _ hd, hq, nodup_keys_aerase _ _ hr, ?_, bq, ?_, ?_⟩
    · intro a ha
      exact bd _ (mem_keys_aerase_subset _ _ _ ha)
    · intro a ha
      exact br _ (mem_keys_aerase_subset _ _ _ ha)
    · intro a
      unfold typedAt
      by_cases ha : a = d
      · subst ha
        rw [alookup_aerase _ _ _ hr, if_pos rfl, alookup_aerase _ _ _ hd,
          if_pos rfl]
        exact typedMaps_none rfl (reqSome_false_of_descSome s a (ht a) hl)
      · rw [alookup_aerase _ _ _ hr, if_neg ha, alookup_aerase _ _ _ hd,
          if_neg ha]
        exact ht a
  · simp only [forceRemoveStdValue, if_neg hl]
    exact ⟨hd, hq, hr, bd, bq, br, ht⟩

theorem tableInv_destroy (s : Store) (d : Int) (h : TableInv s) :
    TableInv (destroyResource s d).2 := by
  obtain ⟨hd, hq, hr, bd, bq, br, ht⟩ := h
  cases hk : alookup s.resources d with
  | none =>
    simp only [destroyResource, hk]
    exact ⟨hd, hq, hr, bd, bq, br, ht⟩
  | some t =>
    cases t with
    | request =>
      simp only [destroyResource, hk]
      unfold TableInv
      refine ⟨hd, nodup_keys_aerase _ _ hq, nodup_keys_aerase _ _ hr, bd, ?_, ?_, ?_⟩
      · intro a ha
        exact bq _ (mem_keys_aerase_subset _ _ _ ha)
      · intro a ha
        exact br _ (mem_keys_aerase_subset _ _ _ ha)
      · intro a
        unfold typedAt
        by_cases ha : a = d
        · subst ha
          rw [alookup_aerase _ _ _ hr, if_pos rfl, alookup_aerase _ _ _ hq,
            if_pos rfl]
          exact typedMaps_none (descSome_false_of_kind_request s a (ht a) hk) rfl
        · rw [alookup_aerase _ _ _ hr, if_neg ha, alookup_aerase _ _ _ hq,
            if_neg ha]
          exact ht a
    | stdValue =>
      simp only [destroyResource, hk]
      exact tableInv_forceRemove s d ⟨hd, hq, hr, bd, bq, br, ht⟩
    | jsContext =>
      simp only [destroyResource, hk]
      exact tableInv_forceRemove s d ⟨hd, hq, hr, bd, bq, br, ht⟩
    | canvas =>
      simp only [destroyResource, hk]
      exact tableInv_forceRemove s d ⟨hd, hq, hr, bd, bq, br, ht⟩
    | image =>
      simp only [destroyResource, hk]
      exact tableInv_forceRemove s d ⟨hd, hq, hr, bd, bq, br, ht⟩
    | font =>
      simp only [destroyResource, hk]
      exact tableInv_forceRemove s d ⟨hd, hq, hr, bd, bq, br, ht⟩

theorem tableInv_applyOp (s : Store) (op : TableOp) (h : TableInv s) :
    TableInv (applyOp s op) := by
  cases op with
  | alloc now v => exact tableInv_storeStdValue now v s h
  | createReq now m => exact tableInv_createRequest now m s h
  | retain rid => exact tableInv_retain s rid h
  | release rid => exact tableInv_release s rid h
  | destroy rid => exact tableInv_destroy s rid h
  | forceRemove rid => exact tableInv_forceRemove s rid h

theorem tableInv_runOps (ops : List TableOp) : TableInv (runOps ops) := by
  suffices h : ∀ s : Store, TableInv s → TableInv (ops.foldl applyOp s) from
    h Store.init tableInv_init
  induction ops with
  | nil => intro s hs; exact hs
  | cons op rest ih =>
    intro s hs
    rw [List.foldl_cons]
    exact ih _ (tableInv_applyOp s op hs)

/-- Counterexample to C1.  Create a request (rid 1) at time 0 and run
the sweeper at time 700000 (past the 10-minute request age limit): the
rid is gone from the request payload map but still present in the kind
map, so the claimed two-way consistency fails after a sweep tick. -/
theorem c1_counterexample :
    ¬ ((((alookup (performCleanup 700000
            (runOps [TableOp.createReq 0 0])).descriptors 1).isSome = true ∨
        (alookup (performCleanup 700000
            (runOps [TableOp.createReq 0 0])).requests 1).isSome = true)) ↔
      (alookup (performCleanup 700000
          (runOps [TableOp.createReq 0 0])).resources 1).isSome = true) := by
  decide

/-- C1 (amended).  After any sequence of allocate / create-request /
retain / release / destroy / force-remove operations from a fresh store,
a rid has an entry in a payload map (descriptors or requests) exactly
when it has one in the kind map; the age/cap sweeper, however, removes
entries only from the payload maps and never touches the kind map. -/
theorem c1_table_consistency_amended :
    (∀ (ops : List TableOp) (rid : Int),
      ((alookup (runOps ops).descriptors rid).isSome = true ∨
        (alookup (runOps ops).requests rid).isSome = true) ↔
      (alookup (runOps ops).resources rid).isSome = true) ∧
    (∀ (now : Int) (s : Store), (performCleanup now s).resources = s.resources) := by
  constructor
  · intro ops rid
    obtain ⟨hd, hq, hr, bd, bq, br, ht⟩ := tableInv_runOps ops
    have hta := ht rid
    unfold typedAt at hta
    cases hk : alookup (runOps ops).resources rid with
    | none =>
      have h1 := hta.1 hk
      rw [h1.1, h1.2]
      simp
    | some t =>
      cases t with
      | request =>
        have h1 := hta.2.1 hk
        rw [h1.1]
        simp
      | stdValue =>
        have h1 := hta.2.2 ResourceType.stdValue (by simp) hk
        rw [h1.1]
        simp
      | jsContext =>
        have h1 := hta.2.2 ResourceType.jsContext (by simp) hk
        rw [h1.1]
        simp
      | canvas =>
        have h1 := hta.2.2 ResourceType.canvas (by simp) hk
        rw [h1.1]
        simp
      | image =>
        have h1 := hta.2.2 ResourceType.image (by simp) hk
        rw [h1.1]
        simp
      | font =>
        have h1 := hta.2.2 ResourceType.font (by simp) hk
        rw [h1.1]
        simp
  · intro now s
    rfl

end AidokuJs
